import Mathlib

/-!
Shallow embedding of the Petri-net reachability/coverability engines of the
repository:

* `src/src/common/petri_net/engine.py` — sequential evaluators over numpy
  arrays (`get_enabled_transitions`, `fire_transition`, `update_marking`).
  The unbounded sentinel ω is the integer `-1`, exactly as in the source.
* `src/src/baseline/parallel.py` — `Subnet`, subnet-local firing, the
  coordinator loop of `petri_reachability_tree`, and `nodes_to_dot`.
  The worker threads and queues are modelled by an explicit list of
  outstanding replies together with a schedule choosing which outstanding
  reply the coordinator processes next; per-request worker output is the
  deterministic `Subnet.fire`, so a schedule determines the whole run.
* `src/scripts/baseline_algorithm.py` — the sequential non-decomposed
  reference engine (`is_enabled`, firing, BFS `execute_petri_net`).

Markings are `List Int`; matrices are `List (List Int)` (row = place,
column = transition). Out-of-range accesses that numpy/Python would make
impossible by shape are rendered with `List.getD` defaults; theorems carry
the corresponding length hypotheses. Python-style checked indexing (an
`IndexError` on an out-of-range subscript) is modelled separately with
`Except` for the model-construction path.
-/

namespace Engine

/-- `get_enabled_transitions` from `src/src/common/petri_net/engine.py`:
transition `t` is enabled iff every place either holds the sentinel `-1` (ω)
or holds at least `I⁻[p][t]` tokens.  Returns the numpy 0/1 vector, one entry
per column of the matrix. -/
def get_enabled_transitions (incidencia_negativa : List (List Int))
    (marcado : List Int) : List Nat :=
  (List.range (incidencia_negativa.headD []).length).map fun t =>
    if ∀ p ∈ List.range marcado.length,
        marcado.getD p 0 = -1 ∨ (incidencia_negativa.getD p []).getD t 0 ≤ marcado.getD p 0
    then 1 else 0

/-- Inner product of a matrix row with the firing vector (numpy `dot`). -/
def dotProd (row vec : List Int) : Int :=
  ((row.zip vec).map fun q => q.1 * q.2).sum

/-- `fire_transition` from `engine.py`: `M + incidence · vector_disparo`,
then every place whose original value is `-1` is restored to `-1`. -/
def fire_transition (marcado : List Int) (incidence : List (List Int))
    (vector_disparo : List Int) : List Int :=
  (List.range marcado.length).map fun p =>
    if marcado.getD p 0 = -1 then -1
    else marcado.getD p 0 + dotProd (incidence.getD p []) vector_disparo

/-- The rowwise covering test of `update_marking` (`cond` / `cumple_total`
in the source): every place of the candidate is `-1`, or the known marking
is finite there and the candidate is at least it. -/
def coversB (nuevo K : List Int) : Bool :=
  (List.range nuevo.length).all fun i =>
    (nuevo.getD i 0 == -1) ||
      ((K.getD i 0 != -1) && decide (K.getD i 0 ≤ nuevo.getD i 0))

/-- The strict-comparison test of `update_marking` (`estricto` in the
source) at place `i`. -/
def strictB (nuevo K : List Int) (i : Nat) : Bool :=
  ((nuevo.getD i 0 == -1) && (K.getD i 0 != -1)) ||
    ((nuevo.getD i 0 != -1) && (K.getD i 0 != -1) &&
      decide (K.getD i 0 < nuevo.getD i 0))

/-- `update_marking` from `engine.py`: among the known markings keep those
the candidate covers; every place at which the candidate strictly exceeds
some covered known marking becomes `-1` (ω); all other places keep the
candidate's value.  (The `np.any(cumple_total)` guard of the source is the
empty-filter case.) -/
def update_marking (marcado : List Int) (marcados_conocidos : List (List Int)) :
    List Int :=
  let covering := marcados_conocidos.filter fun K => coversB marcado K
  (List.range marcado.length).map fun i =>
    if covering.any fun K => strictB marcado K i then -1 else marcado.getD i 0

end Engine

/-- The spec's covering relation, transcribed from its words: "candidate
covers K iff for every place p: candidate[p] == ω OR (K[p] != ω AND
candidate[p] >= K[p])". -/
def specCovers (cand K : List Int) : Prop :=
  ∀ i < cand.length,
    cand.getD i 0 = -1 ∨ (K.getD i 0 ≠ -1 ∧ K.getD i 0 ≤ cand.getD i 0)

/-- The spec's strict-improvement relation at place `p`: "candidate[p] == ω
AND K[p] != ω, or both finite with candidate[p] > K[p]". -/
def specStrict (cand K : List Int) (p : Nat) : Prop :=
  (cand.getD p 0 = -1 ∧ K.getD p 0 ≠ -1) ∨
    (cand.getD p 0 ≠ -1 ∧ K.getD p 0 ≠ -1 ∧ K.getD p 0 < cand.getD p 0)

/-- Pointwise order on marking components with the ω sentinel dominating
every finite value: `a ≤ b` where `-1` (ω) is the top element. -/
def omegaLe (a b : Int) : Prop :=
  b = -1 ∨ (a ≠ -1 ∧ a ≤ b)

namespace Par

/-- `Subnet` from `src/src/baseline/parallel.py` after `__init__`: the id,
the owned global place/transition indices, and the extracted local
incidence matrices. -/
structure Subnet where
  id : Nat
  place_indices : List Nat
  trans_indices : List Nat
  I_minus : List (List Int)
  I_plus : List (List Int)
deriving DecidableEq, Inhabited

/-- `Subnet.__init__`'s extraction of the local matrices from the global
ones: row `p`, column `t` for each owned place/transition. -/
def mkSubnet (id : Nat) (place_indices trans_indices : List Nat)
    (Iminus Iplus : List (List Int)) : Subnet :=
  { id := id
    place_indices := place_indices
    trans_indices := trans_indices
    I_minus := place_indices.map fun p =>
      trans_indices.map fun t => (Iminus.getD p []).getD t 0
    I_plus := place_indices.map fun p =>
      trans_indices.map fun t => (Iplus.getD p []).getD t 0 }

/-- `global_to_local_t`: the dict `{t: i for i, t in enumerate(trans_indices)}`
(on duplicate entries the last index wins, as for a Python dict). -/
def Subnet.globalToLocalT (sn : Subnet) (t : Nat) : Option Nat :=
  ((sn.trans_indices.enum.filter fun q => q.2 == t).getLast?).map fun q => q.1

/-- `Subnet.fire`: project the global marking to the owned places; if the
transition is not local, echo that projection unchanged; otherwise apply
`local - I⁻[·][lt] + I⁺[·][lt]` to every owned place (note: no ω handling
here in the source). -/
def Subnet.fire (sn : Subnet) (M_global : List Int) (t : Nat) : List Int :=
  let local_m := sn.place_indices.map fun p => M_global.getD p 0
  match sn.globalToLocalT t with
  | none => local_m
  | some lt =>
    (List.range sn.place_indices.length).map fun i =>
      local_m.getD i 0 - (sn.I_minus.getD i []).getD lt 0 + (sn.I_plus.getD i []).getD lt 0

/-- `global_enabled` from `petri_reachability_tree`: the list of transition
indices `t < T` with `M[p] >= I⁻[p][t]` for every place `p < P` (a purely
numeric test; the source has no ω case here). -/
def global_enabled (P T : Nat) (Iminus : List (List Int)) (M : List Int) :
    List Nat :=
  (List.range T).filter fun t =>
    (List.range P).all fun p => decide ((Iminus.getD p []).getD t 0 ≤ M.getD p 0)

/-- A node dict of `petri_reachability_tree`: `name`, `label`, `value`
(the marking tuple), optional `from` (parent name) and `trans`. -/
structure RNode where
  name : String
  label : String
  value : List Int
  parent : Option String
  trans : Option Nat
deriving DecidableEq, Inhabited

/-- The inputs of `petri_reachability_tree` (with `transition_subnets` as
built by `__main__`: for each transition the ids of the owning subnets). -/
structure PNet where
  M0 : List Int
  I_minus : List (List Int)
  I_plus : List (List Int)
  subnets : List Subnet
  transition_subnets : List (List Nat)

/-- `P = len(M0)`. -/
def PNet.P (net : PNet) : Nat := net.M0.length

/-- `T = len(I_minus[0]) if P > 0 else 0`. -/
def PNet.T (net : PNet) : Nat :=
  if 0 < net.M0.length then (net.I_minus.headD []).length else 0

/-- `N = len(subnets)`. -/
def PNet.N (net : PNet) : Nat := net.subnets.length

/-- Python `str` of a list of ints, as used in the node labels:
`"[1, 0]"`, `"[-1]"`, `"[]"`. -/
def pyListRepr (xs : List Int) : String :=
  "[" ++ String.intercalate ", " (xs.map toString) ++ "]"

/-- Coordinator-owned state of `petri_reachability_tree`.  `pending` is the
insertion-ordered dict keyed by `(origin marking, transition)` holding the
insertion-ordered per-subnet replies; `outstanding` lists the replies that
have been dispatched to workers but not yet processed by the coordinator,
as `(origin marking, transition, subnet id)`. -/
structure CoordState where
  pending : List ((List Int × Nat) × List (Nat × List Int))
  visited : List (List Int)
  nodes : List RNode
  counter : Nat
  tasks_in_flight : Int
  outstanding : List (List Int × Nat × Nat)
deriving DecidableEq

/-- `enqueue(M, t)`: one request per subnet worker (fan-out to all `N`
subnets, regardless of ownership); each request will produce exactly one
reply. -/
def enqueueReplies (net : PNet) (M : List Int) (t : Nat) :
    List (List Int × Nat × Nat) :=
  (List.range net.N).map fun sid => (M, t, sid)

/-- `pending.setdefault(key, {})[sid]` read-back: the reply dict stored at
`key` (empty when the key is absent). -/
def pendLookup (pending : List ((List Int × Nat) × List (Nat × List Int)))
    (key : List Int × Nat) : List (Nat × List Int) :=
  ((pending.find? fun e => e.1 == key).map fun e => e.2).getD []

/-- Insert/overwrite one subnet reply in a reply dict, keeping Python's
dict insertion order (an overwritten key keeps its position). -/
def upsertEntry (entries : List (Nat × List Int)) (sid : Nat) (lm : List Int) :
    List (Nat × List Int) :=
  if entries.any fun e => e.1 == sid then
    entries.map fun e => if e.1 == sid then (sid, lm) else e
  else entries ++ [(sid, lm)]

/-- `pending.setdefault(key, {})[sid] = local_m`. -/
def pendInsert (pending : List ((List Int × Nat) × List (Nat × List Int)))
    (key : List Int × Nat) (sid : Nat) (lm : List Int) :
    List ((List Int × Nat) × List (Nat × List Int)) :=
  if pending.any fun e => e.1 == key then
    pending.map fun e => if e.1 == key then (e.1, upsertEntry e.2 sid lm) else e
  else pending ++ [(key, upsertEntry [] sid lm)]

/-- `del pending[key]`. -/
def pendErase (pending : List ((List Int × Nat) × List (Nat × List Int)))
    (key : List Int × Nat) : List ((List Int × Nat) × List (Nat × List Int)) :=
  pending.filter fun e => !(e.1 == key)

/-- The inner merge loop: write one subnet's local result into the global
candidate at the subnet's owned place indices.  (An out-of-range
`p_idx` would raise in Python; `List.set` is a no-op there, which the
in-range runs of the claims never exercise.) -/
def writeLocal (acc : List Int) (pis : List Nat) (lm : List Int) : List Int :=
  pis.enum.foldl (fun a q => a.set q.2 (lm.getD q.1 0)) acc

/-- Merging `pending[key]` into the origin marking: `new_M = list(M_repr)`
then for each recorded reply (in dict insertion order) overwrite that
subnet's owned places with its local result. -/
def mergeCandidate (net : PNet) (Mrepr : List Int)
    (entries : List (Nat × List Int)) : List Int :=
  entries.foldl (fun acc e => writeLocal acc (net.subnets.getD e.1 default).place_indices e.2)
    Mrepr

/-- One iteration of the coordinator loop of `petri_reachability_tree`,
processing the reply `r = (origin marking, transition, subnet id)` while
`rest` is the remaining outstanding-reply pool.  The worker's payload is
recomputed deterministically as `subnets[sid].fire(M, t)`.  Mirrors the
source: record the reply; if the number of recorded replies equals the
number of owning subnets, merge, delete the pending entry, and (if the
merged marking is new) record the node and fan out its enabled
transitions; finally decrement the in-flight counter. -/
def processReply (net : PNet) (st : CoordState) (r : List Int × Nat × Nat)
    (rest : List (List Int × Nat × Nat)) : CoordState :=
  let key : List Int × Nat := (r.1, r.2.1)
  let local_res := (net.subnets.getD r.2.2 default).fire r.1 r.2.1
  let pend1 := pendInsert st.pending key r.2.2 local_res
  let entries := pendLookup pend1 key
  if entries.length = (net.transition_subnets.getD r.2.1 []).length then
    let new_M := mergeCandidate net r.1 entries
    let pend2 := pendErase pend1 key
    if new_M ∈ st.visited then
      { st with pending := pend2, outstanding := rest,
                tasks_in_flight := st.tasks_in_flight - 1 }
    else
      let name := "m_" ++ toString st.counter
      let parent := (st.nodes.find? fun n => n.value == r.1).map fun n => n.name
      let node : RNode :=
        { name := name, label := name ++ "\n" ++ pyListRepr new_M,
          value := new_M, parent := parent, trans := some r.2.1 }
      let enab := global_enabled net.P net.T net.I_minus new_M
      { pending := pend2
        visited := st.visited ++ [new_M]
        nodes := st.nodes ++ [node]
        counter := st.counter + 1
        tasks_in_flight := st.tasks_in_flight + (enab.length * net.N : Nat) - 1
        outstanding := rest ++ (enab.map fun u => enqueueReplies net new_M u).flatten }
  else
    { st with pending := pend1, outstanding := rest,
              tasks_in_flight := st.tasks_in_flight - 1 }

/-- One coordinator step under an external schedule: `choice` selects which
outstanding reply arrives next on the shared result queue (`choice` is
reduced modulo the pool size; any interleaving of worker replies is some
schedule). -/
def coordinatorStep (net : PNet) (st : CoordState) (choice : Nat) : CoordState :=
  match st.outstanding with
  | [] => st
  | r0 :: _ =>
    let idx := choice % st.outstanding.length
    processReply net st (st.outstanding.getD idx r0) (st.outstanding.eraseIdx idx)

/-- The state of `petri_reachability_tree` just after seeding: root node
`m_0` for `M0`, `M0` visited, and one dispatched request per subnet per
globally enabled transition of `M0`. -/
def initState (net : PNet) : CoordState :=
  let enab := global_enabled net.P net.T net.I_minus net.M0
  { pending := []
    visited := [net.M0]
    nodes := [{ name := "m_0", label := "m_0\n" ++ pyListRepr net.M0,
                value := net.M0, parent := none, trans := none }]
    counter := 1
    tasks_in_flight := (enab.length * net.N : Nat)
    outstanding := (enab.map fun t => enqueueReplies net net.M0 t).flatten }

/-- The coordinator loop: process scheduled replies until the in-flight
counter reaches zero (the source's `break`); a schedule long enough to
drain the pool yields the terminal state returned by
`petri_reachability_tree`. -/
def coordinatorRun (net : PNet) (st : CoordState) : List Nat → CoordState
  | [] => st
  | c :: cs =>
    if st.tasks_in_flight = 0 then st
    else coordinatorRun net (coordinatorStep net st c) cs

/-- `nodes_to_dot` from `parallel.py`: one label line per node, then one
edge line per node that has a `from` entry. -/
def nodes_to_dot (nodes : List RNode) : String :=
  String.intercalate "\n"
    (["digraph G \x7b"] ++
      (nodes.map fun n => n.name ++ " [label=\"" ++ n.label ++ "\"];") ++
      ((nodes.filter fun n => n.parent.isSome).map fun n =>
        (n.parent.getD "") ++ " -> " ++ n.name ++ " [label=\"t" ++
          toString (n.trans.getD 0) ++ "\"];") ++
      ["\x7d"])

end Par

namespace Par

/-- Is an `Except` computation successful? -/
def exOk : Except String α → Bool
  | .ok _ => true
  | .error _ => false

/-- Python subscripting `l[i]` for a non-negative index: the element when
`i < len(l)`, an `IndexError` otherwise. -/
def pyGetNat (l : List α) (i : Nat) : Except String α :=
  if h : i < l.length then .ok (l.get ⟨i, h⟩) else .error "IndexError"

/-- Left-to-right effectful map over `Except`, the evaluation order of a
Python list comprehension (the first out-of-range access raises). -/
def exceptMap (f : α → Except String β) : List α → Except String (List β)
  | [] => .ok []
  | a :: l =>
    match f a with
    | .error e => .error e
    | .ok b =>
      match exceptMap f l with
      | .error e => .error e
      | .ok bs => .ok (b :: bs)

/-- `Subnet.__init__` with Python's checked indexing made explicit: the two
local-matrix comprehensions are evaluated in source order (`I_minus` rows
first, then `I_plus`), and the only failure the source can produce is an
`IndexError` from an out-of-range subscript.  No other validation of any
kind is performed. -/
def extractRow (mat : List (List Int)) (tis : List Nat) (p : Nat) :
    Except String (List Int) :=
  match pyGetNat mat p with
  | .error e => .error e
  | .ok row => exceptMap (fun t => pyGetNat row t) tis

def mkSubnetChecked (id : Nat) (place_indices trans_indices : List Nat)
    (Iminus Iplus : List (List Int)) : Except String Subnet :=
  match exceptMap (extractRow Iminus trans_indices) place_indices with
  | .error e => .error e
  | .ok im =>
    match exceptMap (extractRow Iplus trans_indices) place_indices with
    | .error e => .error e
    | .ok ip =>
      .ok { id := id, place_indices := place_indices,
            trans_indices := trans_indices, I_minus := im, I_plus := ip }

/-- `num_transitions` as computed in `parallel.py`'s `__main__`. -/
def mainNumT (Iminus Iplus : List (List Int)) : Nat :=
  if 0 < Iminus.length ∧ 0 < (Iminus.getD 0 []).length then
    (Iminus.getD 0 []).length
  else if 0 < Iplus.length ∧ 0 < (Iplus.getD 0 []).length then
    (Iplus.getD 0 []).length
  else 0

/-- Model construction as performed by `parallel.py`'s `__main__` before
`petri_reachability_tree` is called: reconstruct each subnet from its
definition triple `(id, place_indices, trans_indices)` and derive
`transition_subnets`.  The only possible failure is an `IndexError`
surfaced by `mkSubnetChecked`; nothing checks the place partition or the
dimensions. -/
def mainBuild (M0 : List Int) (Iminus Iplus : List (List Int))
    (subnetDefs : List (Nat × List Nat × List Nat)) : Except String PNet :=
  match exceptMap (fun d => mkSubnetChecked d.1 d.2.1 d.2.2 Iminus Iplus) subnetDefs with
  | .error e => .error e
  | .ok subnets =>
    .ok { M0 := M0, I_minus := Iminus, I_plus := Iplus, subnets := subnets,
          transition_subnets := (List.range (mainNumT Iminus Iplus)).map fun t =>
            (subnets.filter fun s => s.trans_indices.contains t).map fun s => s.id }

/-- Does `sub` occur as a contiguous substring of `s`? -/
def strContains (s sub : String) : Bool :=
  (List.range (s.data.length + 1)).any fun i => sub.data.isPrefixOf (s.data.drop i)

end Par

namespace Script

/-- `is_enabled` from `src/scripts/baseline_algorithm.py`: the purely
numeric test `marcado[i] >= incidencia_negativa[i][t]` for every place. -/
def is_enabled (marcado : List Int) (incidencia_negativa : List (List Int))
    (t : Nat) : Bool :=
  (List.range marcado.length).all fun i =>
    decide ((incidencia_negativa.getD i []).getD t 0 ≤ marcado.getD i 0)

/-- `fire_transition` from `baseline_algorithm.py`:
`M' = M - I⁻[:, t] + I⁺[:, t]`. -/
def script_fire (marcado : List Int) (ipos ineg : List (List Int)) (t : Nat) :
    List Int :=
  (List.range marcado.length).map fun i =>
    marcado.getD i 0 - (ineg.getD i []).getD t 0 + (ipos.getD i []).getD t 0

/-- BFS state of `execute_petri_net`: the insertion-ordered `visited` dict
(marking → state name), the deque, the edge list, and the state counter. -/
structure SeqState where
  visited : List (List Int × String)
  queue : List (List Int)
  edges : List (String × String × String)
  contador : Nat
deriving DecidableEq

/-- Dict lookup `visited[m]`. -/
def seqLookup (v : List (List Int × String)) (m : List Int) : Option String :=
  (v.find? fun e => e.1 == m).map fun e => e.2

/-- The body of the inner `for t in range(num_transiciones)` loop of
`execute_petri_net` for the dequeued marking `actual`. -/
def seqProcessTransition (ipos ineg : List (List Int)) (actual : List Int)
    (st : SeqState) (t : Nat) : SeqState :=
  if is_enabled actual ineg t then
    let nuevo := script_fire actual ipos ineg t
    match seqLookup st.visited nuevo with
    | none =>
      let nombre := "M" ++ toString st.contador
      { visited := st.visited ++ [(nuevo, nombre)]
        queue := st.queue ++ [nuevo]
        edges := st.edges ++ [((seqLookup st.visited actual).getD "", nombre,
          "t" ++ toString t)]
        contador := st.contador + 1 }
    | some nombre =>
      { st with edges := st.edges ++ [((seqLookup st.visited actual).getD "", nombre,
          "t" ++ toString t)] }
  else st

/-- One iteration of the `while queue` loop: pop the front marking and fold
the transition loop over it. -/
def seqStep (ipos ineg : List (List Int)) (numT : Nat) (st : SeqState) : SeqState :=
  match st.queue with
  | [] => st
  | actual :: rest =>
    (List.range numT).foldl (seqProcessTransition ipos ineg actual)
      { st with queue := rest }

/-- The `while queue` loop, fuelled (the source need not terminate on
unbounded nets; on the nets of the claims a small fuel drains the queue). -/
def seqRun (ipos ineg : List (List Int)) (numT : Nat) (st : SeqState) :
    Nat → SeqState
  | 0 => st
  | fuel + 1 =>
    if st.queue = [] then st
    else seqRun ipos ineg numT (seqStep ipos ineg numT st) fuel

/-- `execute_petri_net` from `baseline_algorithm.py`: BFS from the initial
marking with `num_transiciones = len(incidence_positiva[0])`, recording one
edge per firing (including firings that rediscover a visited marking). -/
def execute_petri_net (ipos ineg : List (List Int)) (m0 : List Int)
    (fuel : Nat) : SeqState :=
  seqRun ipos ineg (ipos.headD []).length
    { visited := [(m0, "M0")], queue := [m0], edges := [], contador := 1 } fuel

end Script

namespace Par

/-- One place, one transition, one subnet owning everything; `I⁻ = [[0]]`,
`I⁺ = [[1]]`, `M0 = [0]`: firing grows the place, so the merge candidate
`[1]` strictly dominates the history entry `[0]`. -/
def net2 : PNet :=
  { M0 := [0], I_minus := [[0]], I_plus := [[1]]
    subnets := [mkSubnet 0 [0] [0] [[0]] [[1]]]
    transition_subnets := [[0]] }

/-- The end-to-end net of the spec's scenario: 2 places, 2 transitions,
`I⁻ = [[1,0],[0,1]]`, `I⁺ = [[0,1],[1,0]]`, `M0 = [1,0]`, a single subnet
owning both places and both transitions. -/
def net4 : PNet :=
  { M0 := [1, 0], I_minus := [[1, 0], [0, 1]], I_plus := [[0, 1], [1, 0]]
    subnets := [mkSubnet 0 [0, 1] [0, 1] [[1, 0], [0, 1]] [[0, 1], [1, 0]]]
    transition_subnets := [[0], [0]] }

/-- One place, one self-looping zero-effect transition (`I⁻ = I⁺ = [[0]]`,
`M0 = [0]`) and three subnets: subnet 0 owns the place and the transition,
subnet 1 owns the transition but no place, subnet 2 owns nothing.
`transition_subnets` is `[[0, 1]]` as `__main__` derives it, so the merge
for `t0` completes after two of the three fanned-out replies. -/
def net7 : PNet :=
  { M0 := [0], I_minus := [[0]], I_plus := [[0]]
    subnets := [mkSubnet 0 [0] [0] [[0]] [[0]],
                mkSubnet 1 [] [0] [[0]] [[0]],
                mkSubnet 2 [] [] [[0]] [[0]]]
    transition_subnets := [[0, 1]] }

/-- Two places with the first pre-declared unbounded (`M0 = [-1, 0]`) and
no transitions: the run is just the root node, whose label renders the
marking. -/
def net9 : PNet :=
  { M0 := [-1, 0], I_minus := [[], []], I_plus := [[], []]
    subnets := [mkSubnet 0 [0, 1] [] [[], []] [[], []]]
    transition_subnets := [] }

/-- The coordinator invariant backing the dedup and label claims: `visited`
is exactly the list of node markings in creation order, it contains no
duplicates, and every node's label is its name over the Python rendering of
its marking. -/
def CoordInv (st : CoordState) : Prop :=
  st.visited = (st.nodes.map fun n => n.value) ∧ st.visited.Nodup ∧
    ∀ n ∈ st.nodes, n.label = n.name ++ "\n" ++ pyListRepr n.value

end Par

theorem getD_map_range (f : Nat → α) (n t : Nat) (d : α) (h : t < n) :
    ((List.range n).map f).getD t d = f t := by
  rw [List.getD_eq_getElem?_getD, List.getElem?_map, List.getElem?_range h]
  rfl

theorem any_congr_perm {l l' : List α} (g : α → Bool) (h : l.Perm l') :
    l.any g = l'.any g := by
  rcases hb : l'.any g with _ | _
  · simp only [List.any_eq_false] at hb ⊢
    intro a ha
    exact hb a (h.mem_iff.mp ha)
  · simp only [List.any_eq_true] at hb ⊢
    obtain ⟨a, ha, hga⟩ := hb
    exact ⟨a, h.mem_iff.mpr ha, hga⟩

namespace Engine

theorem coversB_iff (cand K : List Int) :
    coversB cand K = true ↔ specCovers cand K := by
  simp [coversB, specCovers, List.all_eq_true, List.mem_range]

theorem strictB_iff (cand K : List Int) (p : Nat) :
    strictB cand K p = true ↔ specStrict cand K p := by
  simp [strictB, specStrict, and_assoc]

instance (cand K : List Int) : Decidable (specCovers cand K) :=
  decidable_of_iff _ (coversB_iff cand K)

instance (cand K : List Int) (p : Nat) : Decidable (specStrict cand K p) :=
  decidable_of_iff _ (strictB_iff cand K p)

theorem update_marking_length (cand : List Int) (hist : List (List Int)) :
    (update_marking cand hist).length = cand.length := by
  simp [update_marking]

theorem update_marking_getD (cand : List Int) (hist : List (List Int))
    (p : Nat) (hp : p < cand.length) :
    (update_marking cand hist).getD p 0 =
      if ∃ K ∈ hist, specCovers cand K ∧ specStrict cand K p then -1
      else cand.getD p 0 := by
  unfold update_marking
  rw [getD_map_range _ _ _ _ hp]
  have hiff : (((hist.filter fun K => coversB cand K).any fun K => strictB cand K p) = true)
      ↔ ∃ K ∈ hist, specCovers cand K ∧ specStrict cand K p := by
    simp only [List.any_eq_true, List.mem_filter, coversB_iff, strictB_iff, and_assoc]
  by_cases hc : ∃ K ∈ hist, specCovers cand K ∧ specStrict cand K p
  · rw [if_pos (hiff.mpr hc), if_pos hc]
  · rw [if_neg fun hb => hc (hiff.mp hb), if_neg hc]

theorem update_marking_perm (cand : List Int) {h1 h2 : List (List Int)}
    (hperm : h1.Perm h2) :
    update_marking cand h1 = update_marking cand h2 := by
  unfold update_marking
  refine List.map_congr_left fun i _ => ?_
  rw [any_congr_perm _ (hperm.filter _)]

end Engine

/-- Claim C5: `update_marking` returns the candidate with exactly the union
of strict-improvement places set to ω: its covering test agrees with the
spec's covering relation; a place becomes `-1` exactly when it already was
`-1` or some history marking is covered with a strict improvement there;
every other place keeps the candidate's value; the result is independent of
the iteration order of the history; and the candidate `[1, ω]` against the
history `{[1,0], [0,2]}` yields `[ω, ω]`. -/
theorem C5_update_marking_correct :
    (∀ cand K : List Int, Engine.coversB cand K = true ↔ specCovers cand K) ∧
    (∀ (cand : List Int) (hist : List (List Int)) (p : Nat), p < cand.length →
      ((Engine.update_marking cand hist).getD p 0 = -1 ↔
        cand.getD p 0 = -1 ∨ ∃ K ∈ hist, specCovers cand K ∧ specStrict cand K p)) ∧
    (∀ (cand : List Int) (hist : List (List Int)) (p : Nat), p < cand.length →
      (¬ ∃ K ∈ hist, specCovers cand K ∧ specStrict cand K p) →
      (Engine.update_marking cand hist).getD p 0 = cand.getD p 0) ∧
    (∀ (cand : List Int) (h1 h2 : List (List Int)), h1.Perm h2 →
      Engine.update_marking cand h1 = Engine.update_marking cand h2) ∧
    Engine.update_marking [1, -1] [[1, 0], [0, 2]] = [-1, -1] ∧
    Engine.update_marking [1, -1] [[0, 2], [1, 0]] = [-1, -1] := by
  refine ⟨Engine.coversB_iff, ?_, ?_, fun cand h1 h2 hp => Engine.update_marking_perm cand hp,
    by decide, by decide⟩
  · intro cand hist p hp
    rw [Engine.update_marking_getD cand hist p hp]
    by_cases hc : ∃ K ∈ hist, specCovers cand K ∧ specStrict cand K p
    · rw [if_pos hc]
      exact iff_of_true rfl (Or.inr hc)
    · rw [if_neg hc]
      exact ⟨fun h => Or.inl h, fun h => h.resolve_right hc⟩
  · intro cand hist p hp hc
    rw [Engine.update_marking_getD cand hist p hp, if_neg hc]

/-- Witness for C5 at the spec's own example: place 0 of `[1, ω]` against
history `{[1,0], [0,2]}` is widened to ω, and reordering the history does
not change the result. -/
theorem C5_witness :
    (((Engine.update_marking [1, -1] [[1, 0], [0, 2]]).getD 0 0 = -1 ↔
      ([1, -1] : List Int).getD 0 0 = -1 ∨
        ∃ K ∈ [[1, 0], [0, 2]], specCovers [1, -1] K ∧ specStrict [1, -1] K 0)) ∧
    Engine.update_marking [1, -1] [[1, 0], [0, 2]] =
      Engine.update_marking [1, -1] [[0, 2], [1, 0]] :=
  ⟨C5_update_marking_correct.2.1 [1, -1] [[1, 0], [0, 2]] 0 (by decide),
   C5_update_marking_correct.2.2.2.1 [1, -1] [[1, 0], [0, 2]] [[0, 2], [1, 0]]
     (by decide)⟩

/-- Claim C10: every component of the widened marking is either the
candidate's component unchanged or ω (`-1`); widening never changes a
finite component to a different finite value, never lowers an ω component,
preserves the length, and the result dominates the candidate pointwise in
the order where ω is the top element. -/
theorem C10_widening_dominates :
    (∀ (cand : List Int) (hist : List (List Int)),
      (Engine.update_marking cand hist).length = cand.length) ∧
    (∀ (cand : List Int) (hist : List (List Int)) (p : Nat), p < cand.length →
      ((Engine.update_marking cand hist).getD p 0 = cand.getD p 0 ∨
        (Engine.update_marking cand hist).getD p 0 = -1) ∧
      (cand.getD p 0 = -1 → (Engine.update_marking cand hist).getD p 0 = -1) ∧
      omegaLe (cand.getD p 0) ((Engine.update_marking cand hist).getD p 0)) := by
  refine ⟨Engine.update_marking_length, ?_⟩
  intro cand hist p hp
  rw [Engine.update_marking_getD cand hist p hp]
  by_cases hc : ∃ K ∈ hist, specCovers cand K ∧ specStrict cand K p
  · rw [if_pos hc]
    exact ⟨Or.inr rfl, fun _ => rfl, Or.inl rfl⟩
  · rw [if_neg hc]
    refine ⟨Or.inl rfl, fun h => h, ?_⟩
    by_cases h1 : cand.getD p 0 = -1
    · exact Or.inl h1
    · exact Or.inr ⟨h1, le_refl _⟩

/-- Claim C1 counterexample: on the marking `M = [-1]` (the single place
holds ω) and `I⁻ = [[0]]`, the claim's enablement condition holds for
transition 0 at every place, yet the concurrent engine's evaluator
`global_enabled` reports no transition enabled: its test `M[p] >= I⁻[p][t]`
has no ω case, so the sentinel `-1` fails even a zero requirement. -/
theorem C1_counterexample :
    Par.global_enabled 1 1 [[0]] [-1] = [] ∧
    (∀ p < ([-1] : List Int).length,
      ([-1] : List Int).getD p 0 = -1 ∨
        (([[0]] : List (List Int)).getD p []).getD 0 0 ≤ ([-1] : List Int).getD p 0) := by
  exact ⟨rfl, by decide⟩

/-- Claim C1 amended: the sequential evaluator `get_enabled_transitions`
reports `t` enabled iff every place holds ω (`-1`) or at least
`I⁻[p][t]` tokens, against the full marking; the concurrent engine's
`global_enabled` instead reports `t` enabled iff every place of the full
global marking numerically satisfies `M[p] >= I⁻[p][t]`, with no ω case. -/
theorem C1_enablement :
    (∀ (Ineg : List (List Int)) (M : List Int) (t : Nat),
      t < (Ineg.headD []).length →
      ((Engine.get_enabled_transitions Ineg M).getD t 0 = 1 ↔
        ∀ p < M.length,
          M.getD p 0 = -1 ∨ (Ineg.getD p []).getD t 0 ≤ M.getD p 0)) ∧
    (∀ (P T : Nat) (Ineg : List (List Int)) (M : List Int) (t : Nat),
      t ∈ Par.global_enabled P T Ineg M ↔
        t < T ∧ ∀ p < P, (Ineg.getD p []).getD t 0 ≤ M.getD p 0) := by
  constructor
  · intro Ineg M t ht
    unfold Engine.get_enabled_transitions
    rw [getD_map_range _ _ _ _ ht]
    split_ifs with h
    · exact iff_of_true rfl fun p hp => h p (List.mem_range.mpr hp)
    · exact iff_of_false (by decide) fun hh => h fun p hp => hh p (List.mem_range.mp hp)
  · intro P T Ineg M t
    simp [Par.global_enabled, List.mem_filter, List.mem_range, List.all_eq_true]

/-- Witness for C1 at the engine test's ω example: `M = [0, ω]`,
`I⁻ = [[1,0],[0,1]]` enables exactly transition 1 in
`get_enabled_transitions`, and `global_enabled` on `M = [1, 0]` enables
exactly transition 0. -/
theorem C1_enablement_witness :
    ((Engine.get_enabled_transitions [[1, 0], [0, 1]] [0, -1]).getD 1 0 = 1 ↔
      ∀ p < ([0, -1] : List Int).length,
        ([0, -1] : List Int).getD p 0 = -1 ∨
          (([[1, 0], [0, 1]] : List (List Int)).getD p []).getD 1 0 ≤
            ([0, -1] : List Int).getD p 0) ∧
    (0 ∈ Par.global_enabled 2 2 [[1, 0], [0, 1]] [1, 0] ↔
      0 < 2 ∧ ∀ p < 2,
        (([[1, 0], [0, 1]] : List (List Int)).getD p []).getD 0 0 ≤
          ([1, 0] : List Int).getD p 0) :=
  ⟨C1_enablement.1 [[1, 0], [0, 1]] [0, -1] 1 (by decide),
   C1_enablement.2 2 2 [[1, 0], [0, 1]] [1, 0] 0⟩

/-- Claim C3 counterexample: the spec's own example — firing transition 1
on `M = [0, ω]` with `I⁻ = [[1,0],[0,1]]`, `I⁺ = [[0,1],[2,0]]`
(so `I⁺ − I⁻ = [[-1,1],[2,-1]]`) — through the concurrent engine's
subnet-local firing yields `[1, -2]`: the ω place is fed into the raw
arithmetic (`-1 - 1 + 0`), not frozen at ω, so the claimed result
`[1, ω]` is wrong for `Subnet.fire`. -/
theorem C3_counterexample :
    (Par.mkSubnet 0 [0, 1] [0, 1] [[1, 0], [0, 1]] [[0, 1], [2, 0]]).fire [0, -1] 1 =
      [1, -2] ∧
    ¬ ((Par.mkSubnet 0 [0, 1] [0, 1] [[1, 0], [0, 1]] [[0, 1], [2, 0]]).fire [0, -1] 1 =
      [1, -1]) := by
  exact ⟨rfl, by decide⟩

/-- Claim C3 amended: the sequential `fire_transition` freezes every ω
place at `-1` regardless of the incidence arithmetic (and on the spec's
example produces `[1, ω]`), but the concurrent `Subnet.fire` applies raw
arithmetic with no ω handling and produces `[1, -2]` on that example. -/
theorem C3_fire_omega :
    (∀ (marcado : List Int) (incidence : List (List Int)) (vec : List Int) (p : Nat),
      p < marcado.length → marcado.getD p 0 = -1 →
      (Engine.fire_transition marcado incidence vec).getD p 0 = -1) ∧
    Engine.fire_transition [0, -1] [[-1, 1], [2, -1]] [0, 1] = [1, -1] ∧
    (Par.mkSubnet 0 [0, 1] [0, 1] [[1, 0], [0, 1]] [[0, 1], [2, 0]]).fire [0, -1] 1 =
      [1, -2] := by
  refine ⟨?_, by decide, by decide⟩
  intro marcado incidence vec p hp hm
  unfold Engine.fire_transition
  rw [getD_map_range _ _ _ _ hp, if_pos hm]

/-- Witness for C3: the ω place of `M = [0, ω]` stays ω under the
sequential `fire_transition` on the spec's incidence matrix. -/
theorem C3_fire_omega_witness :
    (Engine.fire_transition [0, -1] [[-1, 1], [2, -1]] [0, 1]).getD 1 0 = -1 :=
  C3_fire_omega.1 [0, -1] [[-1, 1], [2, -1]] [0, 1] 1 (by decide) (by decide)

namespace Par

theorem exOk_pyGetNat (l : List α) (i : Nat) :
    exOk (pyGetNat l i) = true ↔ i < l.length := by
  unfold pyGetNat
  split <;> simp_all [exOk]

theorem exOk_exists {e : Except String α} (h : exOk e = true) : ∃ v, e = .ok v := by
  cases e <;> simp_all [exOk]

theorem exOk_exceptMap (f : α → Except String β) (l : List α)
    (h : ∀ a ∈ l, exOk (f a) = true) : exOk (exceptMap f l) = true := by
  induction l with
  | nil => rfl
  | cons a l ih =>
    obtain ⟨b, hb⟩ := exOk_exists (h a (List.mem_cons_self a l))
    obtain ⟨bs, hbs⟩ := exOk_exists (ih fun x hx => h x (List.mem_cons_of_mem a hx))
    simp [exceptMap, hb, hbs, exOk]

theorem pyGetNat_ok_of_lt (l : List α) (i : Nat) (h : i < l.length) (d : α) :
    pyGetNat l i = .ok (l.getD i d) := by
  simp [pyGetNat, h, List.getD_eq_getElem]

theorem exOk_extractRow (mat : List (List Int)) (tis : List Nat) (p : Nat)
    (hp : p < mat.length) (ht : ∀ t ∈ tis, t < (mat.getD p []).length) :
    exOk (extractRow mat tis p) = true := by
  unfold extractRow
  rw [pyGetNat_ok_of_lt mat p hp []]
  exact exOk_exceptMap _ _ fun t htt => (exOk_pyGetNat _ _).mpr (ht t htt)

theorem exOk_mkSubnetChecked (id : Nat) (pis tis : List Nat)
    (Im Ip : List (List Int))
    (h : ∀ p ∈ pis, p < Im.length ∧ p < Ip.length ∧
      ∀ t ∈ tis, t < (Im.getD p []).length ∧ t < (Ip.getD p []).length) :
    exOk (mkSubnetChecked id pis tis Im Ip) = true := by
  obtain ⟨im, him⟩ := exOk_exists (exOk_exceptMap (extractRow Im tis) pis
    fun p hp => exOk_extractRow Im tis p (h p hp).1 fun t ht => ((h p hp).2.2 t ht).1)
  obtain ⟨ip, hip⟩ := exOk_exists (exOk_exceptMap (extractRow Ip tis) pis
    fun p hp => exOk_extractRow Ip tis p (h p hp).2.1 fun t ht => ((h p hp).2.2 t ht).2)
  simp [mkSubnetChecked, him, hip, exOk]

end Par

/-- Claim C6 counterexample: the subnet definitions `(0, [0], [0])` and
`(1, [0], [0])` over the 2-place net `I⁻ = [[1],[0]]`, `I⁺ = [[0],[1]]`,
`M0 = [1, 0]` give a place partition that is both overlapping (place 0 is
owned twice) and non-exhaustive (place 1 is owned by no subnet), yet model
construction as performed before `petri_reachability_tree` succeeds — no
`InvalidNetError` (or error of any kind) is raised. -/
theorem C6_counterexample :
    Par.exOk (Par.mainBuild [1, 0] [[1], [0]] [[0], [1]]
      [(0, [0], [0]), (1, [0], [0])]) = true ∧
    (∀ d ∈ ([(0, [0], [0]), (1, [0], [0])] :
        List (Nat × List Nat × List Nat)), (1 : Nat) ∉ d.2.1) ∧
    (∀ d ∈ ([(0, [0], [0]), (1, [0], [0])] :
        List (Nat × List Nat × List Nat)), (0 : Nat) ∈ d.2.1) ∧
    ([1, 0] : List Int).length = 2 := by
  exact ⟨rfl, by decide, by decide, rfl⟩

/-- Claim C6 amended: model construction performs no validation at all —
there is no `InvalidNetError`; whenever every referenced place/transition
index is within the bounds of the global matrices, both `Subnet`
construction and the whole `__main__` construction succeed, regardless of
whether the place subsets partition the place set or the matrix dimensions
agree with the initial marking; only a genuinely out-of-range index fails,
as a raw `IndexError` at matrix extraction. -/
theorem C6_no_validation :
    (∀ (id : Nat) (pis tis : List Nat) (Im Ip : List (List Int)),
      (∀ p ∈ pis, p < Im.length ∧ p < Ip.length ∧
        ∀ t ∈ tis, t < (Im.getD p []).length ∧ t < (Ip.getD p []).length) →
      Par.exOk (Par.mkSubnetChecked id pis tis Im Ip) = true) ∧
    (∀ (M0 : List Int) (Im Ip : List (List Int))
        (defs : List (Nat × List Nat × List Nat)),
      (∀ d ∈ defs, ∀ p ∈ d.2.1, p < Im.length ∧ p < Ip.length ∧
        ∀ t ∈ d.2.2, t < (Im.getD p []).length ∧ t < (Ip.getD p []).length) →
      Par.exOk (Par.mainBuild M0 Im Ip defs) = true) := by
  refine ⟨Par.exOk_mkSubnetChecked, ?_⟩
  intro M0 Im Ip defs h
  obtain ⟨subnets, hs⟩ := Par.exOk_exists (Par.exOk_exceptMap _ defs
    fun d hd => Par.exOk_mkSubnetChecked d.1 d.2.1 d.2.2 Im Ip (h d hd))
  simp [Par.mainBuild, hs, Par.exOk]

/-- Witness for C6: the overlapping, non-exhaustive two-subnet input of the
counterexample is accepted by both construction layers. -/
theorem C6_no_validation_witness :
    Par.exOk (Par.mkSubnetChecked 0 [0] [0] [[1], [0]] [[0], [1]]) = true ∧
    Par.exOk (Par.mainBuild [1, 0] [[1], [0]] [[0], [1]]
      [(0, [0], [0]), (1, [0], [0])]) = true :=
  ⟨C6_no_validation.1 0 [0] [0] [[1], [0]] [[0], [1]] (by decide),
   C6_no_validation.2 [1, 0] [[1], [0]] [[0], [1]]
     [(0, [0], [0]), (1, [0], [0])] (by decide)⟩

namespace Par

theorem processReply_inv (net : PNet) (st : CoordState) (r : List Int × Nat × Nat)
    (rest : List (List Int × Nat × Nat)) (h : CoordInv st) :
    CoordInv (processReply net st r rest) := by
  obtain ⟨h1, h2, h3⟩ := h
  simp only [processReply]
  split_ifs with hlen hvis
  · exact ⟨h1, h2, h3⟩
  · refine ⟨?_, ?_, ?_⟩
    · simp [h1]
    · refine List.nodup_append.mpr ⟨h2, List.nodup_singleton _, ?_⟩
      intro a ha hb
      exact hvis (List.mem_singleton.mp hb ▸ ha)
    · intro n hn
      rcases List.mem_append.mp hn with hn | hn
      · exact h3 n hn
      · rw [List.mem_singleton.mp hn]
  · exact ⟨h1, h2, h3⟩

theorem coordinatorStep_inv (net : PNet) (st : CoordState) (c : Nat)
    (h : CoordInv st) : CoordInv (coordinatorStep net st c) := by
  unfold coordinatorStep
  split
  · exact h
  · exact processReply_inv net st _ _ h

theorem coordinatorRun_inv (net : PNet) (sched : List Nat) (st : CoordState)
    (h : CoordInv st) : CoordInv (coordinatorRun net st sched) := by
  induction sched generalizing st with
  | nil => exact h
  | cons c cs ih =>
    unfold coordinatorRun
    split
    · exact h
    · exact ih _ (coordinatorStep_inv net st c h)

theorem initState_inv (net : PNet) : CoordInv (initState net) := by
  refine ⟨rfl, List.nodup_singleton _, ?_⟩
  intro n hn
  rw [List.mem_singleton.mp hn]
  show "m_0\n" ++ pyListRepr net.M0 = "m_0" ++ "\n" ++ pyListRepr net.M0
  rw [show ("m_0" ++ "\n" : String) = "m_0\n" by decide]

end Par

/-- Claim C2 counterexample: on `net2` (`I⁻ = [[0]]`, `I⁺ = [[1]]`,
`M0 = [0]`, one subnet) the first merge produces the candidate `[1]`, the
marking history at that point is `[[0]]`, and the omega-widening evaluator
would canonicalise `[1]` to `[ω]` — but the coordinator records the node
with the raw marking `[1]`: the widening evaluator is never called. -/
theorem C2_counterexample :
    ((Par.coordinatorRun Par.net2 (Par.initState Par.net2) [0]).nodes.map
      fun n => n.value) = [[0], [1]] ∧
    Engine.update_marking [1] [[0]] = [-1] ∧
    ((Par.coordinatorRun Par.net2 (Par.initState Par.net2) [0]).nodes.getD 1
      default).value ≠ Engine.update_marking [1] [[0]] := by
  refine ⟨by decide, by decide, by decide⟩

/-- Claim C2 amended: every node the coordinator appends carries the *raw*
merge of the owning subnets' replies into the origin marking, accepted only
because it is not yet visited; no widening is applied to it (as the
counterexample shows, the recorded marking can differ from the widened
canonical marking of the merge candidate). -/
theorem C2_raw_merge_recorded :
    ∀ (net : Par.PNet) (st : Par.CoordState) (r : List Int × Nat × Nat)
      (rest : List (List Int × Nat × Nat)),
      (Par.processReply net st r rest).nodes = st.nodes ∨
      ∃ nd : Par.RNode,
        (Par.processReply net st r rest).nodes = st.nodes ++ [nd] ∧
        nd.value = Par.mergeCandidate net r.1
          (Par.pendLookup (Par.pendInsert st.pending (r.1, r.2.1) r.2.2
            ((net.subnets.getD r.2.2 default).fire r.1 r.2.1)) (r.1, r.2.1)) ∧
        nd.value ∉ st.visited ∧
        nd.trans = some r.2.1 := by
  intro net st r rest
  simp only [Par.processReply]
  split_ifs with hlen hvis
  · exact Or.inl rfl
  · exact Or.inr ⟨_, rfl, rfl, hvis, rfl⟩
  · exact Or.inl rfl

/-- Claim C4 counterexample: on the spec's end-to-end net (`net4`, a single
subnet owning everything), the concurrent engine's drained run has exactly
one parent edge (`m_0 → m_1` via `t0`), not the claimed two edges of a
2-cycle, while the sequential reference engine does produce two edges; the
two outputs therefore also disagree. -/
theorem C4_counterexample :
    (((Par.coordinatorRun Par.net4 (Par.initState Par.net4) [0, 0]).nodes.filter
      fun n => n.parent.isSome).length = 1 ∧
    ¬ ((((Par.coordinatorRun Par.net4 (Par.initState Par.net4) [0, 0]).nodes.filter
      fun n => n.parent.isSome).length) = 2)) ∧
    (Script.execute_petri_net [[0, 1], [1, 0]] [[1, 0], [0, 1]] [1, 0] 5).edges.length
      = 2 := by
  refine ⟨⟨by decide, by decide⟩, by decide⟩

/-- Claim C4 amended: on the spec's end-to-end net the concurrent engine
terminates (in-flight counter zero, no outstanding replies) with exactly
the two nodes `[1, 0]` and `[0, 1]` but only one directed edge
(`m_0 → m_1`, labelled by transition 0) — re-deriving the visited marking
`[1, 0]` records no back edge.  The sequential reference engine visits the
same two markings but records both edges of the 2-cycle, so the two
outputs differ exactly in the back edge. -/
theorem C4_end_to_end :
    (Par.coordinatorRun Par.net4 (Par.initState Par.net4) [0, 0]).tasks_in_flight = 0 ∧
    (Par.coordinatorRun Par.net4 (Par.initState Par.net4) [0, 0]).outstanding = [] ∧
    ((Par.coordinatorRun Par.net4 (Par.initState Par.net4) [0, 0]).nodes.map
      fun n => n.value) = [[1, 0], [0, 1]] ∧
    ((Par.coordinatorRun Par.net4 (Par.initState Par.net4) [0, 0]).nodes.map
      fun n => (n.name, n.parent, n.trans)) =
      [("m_0", none, none), ("m_1", some "m_0", some 0)] ∧
    (Script.execute_petri_net [[0, 1], [1, 0]] [[1, 0], [0, 1]] [1, 0] 5).queue = [] ∧
    (Script.execute_petri_net [[0, 1], [1, 0]] [[1, 0], [0, 1]] [1, 0] 5).visited =
      [([1, 0], "M0"), ([0, 1], "M1")] ∧
    (Script.execute_petri_net [[0, 1], [1, 0]] [[1, 0], [0, 1]] [1, 0] 5).edges =
      [("M0", "M1", "t0"), ("M1", "M0", "t1")] := by
  refine ⟨by decide, by decide, by decide, by decide, by decide, by decide, by decide⟩

/-- Claim C7: on `net7` (one zero-effect transition owned by subnets 0 and
1, with a third subnet owning nothing) the run dispatches three replies for
the single enabled transition; after the two replies from subnets 0 and 1
complete the merge and delete the pending entry, the late reply from the
non-owning subnet 2 re-creates it, so the run terminates (the in-flight
counter reaches zero, nothing outstanding) with a leftover, never-merged
`pending` entry — contradicting the claim that the pending-merge table is
empty at termination.  The chosen processing order (subnet 0, 1, then 2)
is realisable: each worker holds exactly one request. -/
theorem C7_pending_leftover :
    (Par.coordinatorRun Par.net7 (Par.initState Par.net7) [0, 0, 0]).tasks_in_flight = 0 ∧
    (Par.coordinatorRun Par.net7 (Par.initState Par.net7) [0, 0, 0]).outstanding = [] ∧
    (Par.coordinatorRun Par.net7 (Par.initState Par.net7) [0, 0, 0]).pending =
      [(([0], 0), [(2, [])])] ∧
    (Par.coordinatorRun Par.net7 (Par.initState Par.net7) [0, 0, 0]).pending ≠ [] := by
  refine ⟨by decide, by decide, by decide, by decide⟩

/-- Claim C8: in every run of the concurrent coordinator (any net, any
reply schedule) the node list holds at most one node per distinct marking;
and whenever a completed merge re-derives a marking already in the visited
set, the step appends no node, dispatches nothing (the outstanding pool
only loses the processed reply), and leaves the visited set unchanged. -/
theorem C8_dedup_invariant :
    (∀ (net : Par.PNet) (sched : List Nat),
      (((Par.coordinatorRun net (Par.initState net) sched).nodes.map
        fun n => n.value)).Nodup) ∧
    (∀ (net : Par.PNet) (st : Par.CoordState) (r : List Int × Nat × Nat)
        (rest : List (List Int × Nat × Nat)),
      (Par.pendLookup (Par.pendInsert st.pending (r.1, r.2.1) r.2.2
          ((net.subnets.getD r.2.2 default).fire r.1 r.2.1)) (r.1, r.2.1)).length =
        (net.transition_subnets.getD r.2.1 []).length →
      Par.mergeCandidate net r.1 (Par.pendLookup (Par.pendInsert st.pending
          (r.1, r.2.1) r.2.2 ((net.subnets.getD r.2.2 default).fire r.1 r.2.1))
          (r.1, r.2.1)) ∈ st.visited →
      (Par.processReply net st r rest).nodes = st.nodes ∧
      (Par.processReply net st r rest).outstanding = rest ∧
      (Par.processReply net st r rest).visited = st.visited) := by
  constructor
  · intro net sched
    have h := Par.coordinatorRun_inv net sched _ (Par.initState_inv net)
    exact h.1 ▸ h.2.1
  · intro net st r rest hlen hvis
    simp only [Par.processReply]
    rw [if_pos hlen, if_pos hvis]
    exact ⟨rfl, rfl, rfl⟩

/-- Witness for C8: the nodes of the drained `net4` run have pairwise
distinct markings, and the second step of that run — which re-derives the
visited marking `[1, 0]` — changes neither the node list nor the visited
set and dispatches nothing. -/
theorem C8_dedup_invariant_witness :
    (((Par.coordinatorRun Par.net4 (Par.initState Par.net4) [0, 0]).nodes.map
      fun n => n.value)).Nodup ∧
    ((Par.processReply Par.net4 (Par.coordinatorStep Par.net4 (Par.initState Par.net4) 0)
        ([0, 1], 1, 0) []).nodes =
      (Par.coordinatorStep Par.net4 (Par.initState Par.net4) 0).nodes ∧
    (Par.processReply Par.net4 (Par.coordinatorStep Par.net4 (Par.initState Par.net4) 0)
        ([0, 1], 1, 0) []).outstanding = [] ∧
    (Par.processReply Par.net4 (Par.coordinatorStep Par.net4 (Par.initState Par.net4) 0)
        ([0, 1], 1, 0) []).visited =
      (Par.coordinatorStep Par.net4 (Par.initState Par.net4) 0).visited) :=
  ⟨C8_dedup_invariant.1 Par.net4 [0, 0],
   C8_dedup_invariant.2 Par.net4 (Par.coordinatorStep Par.net4 (Par.initState Par.net4) 0)
     ([0, 1], 1, 0) [] (by decide) (by decide)⟩

/-- Claim C9 counterexample: on `net9` (initial marking `[-1, 0]`, no
transitions) the only node's label is the raw Python rendering
`m_0\n[-1, 0]`: the ω component is shown as the numeric sentinel `-1`
(the substring `-1` occurs; no non-numeric ω symbol does), and the DOT
export reproduces it verbatim. -/
theorem C9_counterexample :
    ((Par.coordinatorRun Par.net9 (Par.initState Par.net9) []).nodes.map
      fun n => n.label) = ["m_0\n[-1, 0]"] ∧
    Par.strContains "m_0\n[-1, 0]" "-1" = true ∧
    Par.strContains "m_0\n[-1, 0]" "ω" = false ∧
    Par.nodes_to_dot (Par.coordinatorRun Par.net9 (Par.initState Par.net9) []).nodes =
      "digraph G \x7b\nm_0 [label=\"m_0\n[-1, 0]\"];\n\x7d" := by
  refine ⟨by decide, by decide, by decide, by decide⟩

/-- Claim C9 amended: in every run of the concurrent engine every node's
label is its name followed by the plain Python list rendering of its
marking — ω components are rendered as the raw numeric sentinel `-1`,
never as a distinguished non-numeric symbol. -/
theorem C9_labels_numeric :
    ∀ (net : Par.PNet) (sched : List Nat),
      ∀ n ∈ (Par.coordinatorRun net (Par.initState net) sched).nodes,
        n.label = n.name ++ "\n" ++ Par.pyListRepr n.value := by
  intro net sched
  exact (Par.coordinatorRun_inv net sched _ (Par.initState_inv net)).2.2

/-- Witness for C9: the root node of the `net9` run, whose marking contains
the sentinel, carries exactly the numeric label. -/
theorem C9_labels_numeric_witness :
    ({ name := "m_0", label := "m_0\n[-1, 0]", value := [-1, 0], parent := none,
       trans := none } : Par.RNode).label =
      "m_0" ++ "\n" ++ Par.pyListRepr [-1, 0] :=
  C9_labels_numeric Par.net9 []
    { name := "m_0", label := "m_0\n[-1, 0]", value := [-1, 0], parent := none,
      trans := none } (by decide)

/-- Witness for C10 at the docstring example of `update_marking`:
candidate `[2, ω]` against a five-marking history. -/
theorem C10_widening_dominates_witness :
    ((Engine.update_marking [2, -1] [[1, 0], [0, 2], [1, 1], [1, -1], [3, 0]]).getD 0 0 =
        ([2, -1] : List Int).getD 0 0 ∨
      (Engine.update_marking [2, -1] [[1, 0], [0, 2], [1, 1], [1, -1], [3, 0]]).getD 0 0 = -1) ∧
    omegaLe (([2, -1] : List Int).getD 0 0)
      ((Engine.update_marking [2, -1] [[1, 0], [0, 2], [1, 1], [1, -1], [3, 0]]).getD 0 0) :=
  ⟨(C10_widening_dominates.2 [2, -1] [[1, 0], [0, 2], [1, 1], [1, -1], [3, 0]] 0
      (by decide)).1,
   (C10_widening_dominates.2 [2, -1] [[1, 0], [0, 2], [1, 1], [1, -1], [3, 0]] 0
      (by decide)).2.2⟩
